import Mathlib

/-!
# Verification of the portfolio routing and contact-form validation core

This development embeds, in Lean, the two load-bearing pieces of the
repository:

* the static route table of `src/app/app.routes.ts` together with the
  router's first-match / redirect resolution discipline, and
* the contact-form validation schema and `submit()` gate of
  `ContactComponent`, plus the custom `bannedWordsValidator`, as given in
  the security document.

Machine strings are modelled as Lean `String`; the framework-internal
validator primitives (`Validators.required` and friends) are not part of
the repository, so their rule semantics are modelled from the
specification's rule table.
-/

namespace Portfolio

/-! ## Route table (`src/app/app.routes.ts`) -/

/-- The four lazily loaded page components of the application
(`Inicial`, `Resumo`, `Sobre`, `Contato`). -/
inductive Page where
  | inicial
  | resumo
  | sobre
  | contato
deriving DecidableEq, Repr

/-- One entry of the Angular route table: a path pattern (the literal
segment, or `"**"` for the wildcard), an optional `redirectTo` target,
and an optional lazily loaded page (`loadComponent`). -/
structure RouteEntry where
  path : String
  redirectTo : Option String := none
  loadComponent : Option Page := none
deriving DecidableEq, Repr

/-- The route table of `app.routes.ts`, in declaration order. -/
def routes : List RouteEntry :=
  [ { path := "", redirectTo := some "/inicio" },
    { path := "inicio", loadComponent := some Page.inicial },
    { path := "resumo", loadComponent := some Page.resumo },
    { path := "sobre", loadComponent := some Page.sobre },
    { path := "contato", loadComponent := some Page.contato },
    { path := "**", redirectTo := some "/inicio" } ]

/-- Normalize an incoming navigation path: drop a single leading slash,
so `/inicio` and `inicio` name the same route segment. -/
def normalize (p : String) : String :=
  match p with
  | ⟨'/' :: rest⟩ => ⟨rest⟩
  | _ => p

/-- Whether a route entry's pattern matches a (normalized) path: the
wildcard `"**"` matches everything, a literal pattern matches exactly
itself (the root entry's `path: ''` with `pathMatch: 'full'` matches only
the empty path). -/
def matchesEntry (e : RouteEntry) (p : String) : Bool :=
  e.path == "**" || e.path == p

/-- First-match resolution over the ordered route table. -/
def firstMatch (p : String) : Option RouteEntry :=
  routes.find? (fun e => matchesEntry e p)

/-- Router resolution with a fuel bound on redirect chains: resolve the
first matching entry; a redirect entry is not rendered, the router
immediately re-resolves on the redirect's target path. -/
def resolveFuel : Nat → String → Option Page
  | 0, _ => none
  | fuel + 1, p =>
    match firstMatch (normalize p) with
    | none => none
    | some e =>
      match e.redirectTo with
      | some t => resolveFuel fuel t
      | none => e.loadComponent

/-- Resolution of an incoming path; fuel 2 covers the table's single
level of redirection. -/
def resolvePath (p : String) : Option Page :=
  resolveFuel 2 p

/-- The literal (non-wildcard) patterns declared by the table. -/
def literalPatterns : List String :=
  ["", "inicio", "resumo", "sobre", "contato"]

/-- The wildcard catch-all entry of the table. -/
def catchAllEntry : RouteEntry :=
  { path := "**", redirectTo := some "/inicio" }

/-- A redirect target resolves, in a single further lookup, to an entry
that is a page (no further redirect). -/
def redirectTargetIsPage (t : String) : Bool :=
  match firstMatch (normalize t) with
  | some e => e.redirectTo.isNone && e.loadComponent.isSome
  | none => false

/-! ## Contact-form validation (`ContactComponent` in the security document) -/

/-- Whitespace characters for trimming purposes. -/
def isSpaceChar (c : Char) : Bool :=
  c == ' ' || c == '\t' || c == '\n' || c == '\r'

/-- Trim leading and trailing whitespace from a character list. -/
def trimChars (cs : List Char) : List Char :=
  ((cs.dropWhile isSpaceChar).reverse.dropWhile isSpaceChar).reverse

/-- Does `needle` occur as a leading run of `hay`? -/
def startsWithChars : List Char → List Char → Bool
  | [], _ => true
  | _ :: _, [] => false
  | a :: as, b :: bs => a == b && startsWithChars as bs

/-- Does `needle` occur as a contiguous run anywhere in the list?
(the semantics of JavaScript `String.prototype.includes`). -/
def containsSub (needle : List Char) : List Char → Bool
  | [] => needle.isEmpty
  | c :: cs => startsWithChars needle (c :: cs) || containsSub needle cs

/-- String `s` contains `sub` as a substring. -/
def strIncludes (s sub : String) : Bool :=
  containsSub sub.toList s.toList

/-- Character-wise lowercasing (`toLowerCase` on the values in play). -/
def lowerStr (s : String) : String :=
  String.mk (s.toList.map Char.toLower)

/-- Modelled from the spec: `Validators.email` is a framework primitive
whose implementation is not in the repository; the spec's rule table says
the `email` rule errors when the value does not match a standard email
grammar. Modelled as: a first `@` separating a non-empty local part from
a non-empty domain that contains a dot and no further `@`. -/
def emailOkAux (lp : List Char) : List Char → Bool
  | [] => false
  | '@' :: rest => !lp.isEmpty && !rest.isEmpty && rest.contains '.' && !rest.contains '@'
  | c :: rest => emailOkAux (c :: lp) rest

/-- The value matches the modelled email grammar. -/
def emailOk (v : String) : Bool :=
  emailOkAux [] v.toList

/-- Consume exactly `n` decimal digits, returning the rest. -/
def takeDigits : Nat → List Char → Option (List Char)
  | 0, cs => some cs
  | _ + 1, [] => none
  | n + 1, c :: cs => if c.isDigit then takeDigits n cs else none

/-- Tail of the phone pattern: `-?(\d\x7b4\x7d)$`. -/
def phoneTail (cs : List Char) : Bool :=
  (match takeDigits 4 cs with
   | some rest => rest.isEmpty
   | none => false) ||
  (match cs with
   | '-' :: cs2 =>
     match takeDigits 4 cs2 with
     | some rest => rest.isEmpty
     | none => false
   | _ => false)

/-- Middle of the phone pattern: `(\d\x7b4,5\x7d)` then the tail. -/
def phoneMain (cs : List Char) : Bool :=
  (match takeDigits 4 cs with
   | some rest => phoneTail rest
   | none => false) ||
  (match takeDigits 5 cs with
   | some rest => phoneTail rest
   | none => false)

/-- Optional area code `(\d\x7b2\x7d)?` then the main part. -/
def phoneArea (cs : List Char) : Bool :=
  phoneMain cs ||
  (match takeDigits 2 cs with
   | some rest => phoneMain rest
   | none => false)

/-- The phone pattern of the contact form,
`^(\+55|0)?(\d\x7b2\x7d)?(\d\x7b4,5\x7d)-?(\d\x7b4\x7d)$`, as a direct
matcher (a string matches the regex iff some decomposition succeeds). -/
def phoneOk (v : String) : Bool :=
  let cs := v.toList
  phoneArea cs ||
  (match cs with
   | '+' :: '5' :: '5' :: rest => phoneArea rest
   | _ => false) ||
  (match cs with
   | '0' :: rest => phoneArea rest
   | _ => false)

/-- The error kinds a rule can contribute to a field's error set. -/
inductive ErrorKind where
  | required
  | email
  | minLength
  | maxLength
  | pattern
deriving DecidableEq, Repr

/-- The validation rules configured in the contact form. -/
inductive Rule where
  | required
  | email
  | minLength (n : Nat)
  | maxLength (n : Nat)
  | phonePattern
deriving DecidableEq, Repr

/-- Modelled from the spec: the `Validators.*` primitives are framework
internals not present in the repository; the spec's rule table defines
each rule's error condition (`required`: value empty after trimming;
`minLength(n)` / `maxLength(n)`: length outside the bound;
`pattern`: value fails the configured regex). -/
def evalRule (v : String) : Rule → Option ErrorKind
  | Rule.required => if (trimChars v.toList).isEmpty then some ErrorKind.required else none
  | Rule.email => if emailOk v then none else some ErrorKind.email
  | Rule.minLength n => if v.length < n then some ErrorKind.minLength else none
  | Rule.maxLength n => if n < v.length then some ErrorKind.maxLength else none
  | Rule.phonePattern => if phoneOk v then none else some ErrorKind.pattern

/-- All configured rules of a field are evaluated independently and the
errors accumulate into the field's error set. -/
def validateField (rules : List Rule) (v : String) : List ErrorKind :=
  rules.filterMap (evalRule v)

/-- Rules of the `email` field: required + email format. -/
def emailRules : List Rule := [Rule.required, Rule.email]

/-- Rules of the `name` field: required + 3..50 characters. -/
def nameRules : List Rule := [Rule.required, Rule.minLength 3, Rule.maxLength 50]

/-- Rules of the `message` field: required + 10..1000 characters. -/
def messageRules : List Rule := [Rule.required, Rule.minLength 10, Rule.maxLength 1000]

/-- Rules of the `phone` field: the phone pattern. -/
def phoneRules : List Rule := [Rule.phonePattern]

/-- The mutable state of the contact form: one string value per field. -/
structure ContactFormState where
  email : String
  name : String
  message : String
  phone : String
deriving DecidableEq, Repr

/-- Embeds `this.contactForm.value`: the mapping from field name to value. -/
def formValue (f : ContactFormState) : List (String × String) :=
  [("email", f.email), ("name", f.name), ("message", f.message), ("phone", f.phone)]

/-- Embeds `this.contactForm.invalid`: some field's error set is non-empty. -/
def contactFormInvalid (f : ContactFormState) : Bool :=
  !(validateField emailRules f.email).isEmpty ||
  !(validateField nameRules f.name).isEmpty ||
  !(validateField messageRules f.message).isEmpty ||
  !(validateField phoneRules f.phone).isEmpty

/-- Outcome of a `submit()` call: either the submission is rejected
(`FormInvalid` signalled to the caller, the form stays interactive) or
the validated form data is handed to the external submission
collaborator. -/
inductive SubmitResult where
  | rejected
  | submitted (formData : List (String × String))
deriving DecidableEq, Repr

/-- Embeds `ContactComponent.submit()`: validate before sending; an invalid form
is reported and nothing is handed off, otherwise `contactForm.value` is
handed to the external collaborator. -/
def submit (f : ContactFormState) : SubmitResult :=
  if contactFormInvalid f then SubmitResult.rejected
  else SubmitResult.submitted (formValue f)

/-- How many times one `submit()` call hands data to the external
submission collaborator. -/
def handoffCount : SubmitResult → Nat
  | SubmitResult.rejected => 0
  | SubmitResult.submitted _ => 1

/-- Embeds the inner loop of `bannedWordsValidator`: the first configured word whose
lowercased form occurs in the (already lowercased) text. -/
def findBannedWord (text : String) : List String → Option String
  | [] => none
  | w :: ws =>
    if strIncludes text (lowerStr w) then some w else findBannedWord text ws

/-- Embeds `bannedWordsValidator(words)` applied to a control value: a missing
or empty value yields no error; otherwise the lowercased value is
scanned for each word's lowercased form, returning the first hit. -/
def bannedWordsValidator (words : List String) (value : Option String) : Option String :=
  match value with
  | none => none
  | some v => if v = "" then none else findBannedWord (lowerStr v) words

/-! ## Navigation-generation model for concurrent page loads

Modelled from the spec: the stale-result-discard discipline for
asynchronous page-module loading is framework behavior, not code in the
repository; the spec requires that the most recent navigation request's
result is what is ultimately displayed, via a navigation generation
counter that discards superseded completions. -/

/-- Display state: the current navigation generation and the currently
displayed page (none while nothing has finished loading). -/
structure NavState where
  gen : Nat
  displayed : Option Page
deriving DecidableEq, Repr

/-- External events: a navigation request, or the completion of the
page-module load started by the `g`-th navigation. -/
inductive NavEvent where
  | navigate (p : String)
  | loadComplete (g : Nat) (pg : Page)
deriving DecidableEq, Repr

/-- One event step: a navigation bumps the generation and starts a load;
a completed load is displayed only if its generation is still current,
otherwise it is discarded as stale. -/
def navStep (s : NavState) : NavEvent → NavState
  | NavEvent.navigate _ => { s with gen := s.gen + 1 }
  | NavEvent.loadComplete g pg =>
    if g = s.gen then { s with displayed := some pg } else s

/-- Run a sequence of events. -/
def navRun (s : NavState) : List NavEvent → NavState
  | [] => s
  | e :: es => navRun (navStep s e) es

/-- Initial display state. -/
def navInit : NavState := ⟨0, none⟩

end Portfolio

namespace Portfolio

/-! ## Router lemmas -/

/-- If a normalized path is none of the five declared literal patterns,
the first matching entry is the wildcard catch-all. -/
lemma firstMatch_not_literal (np : String) (h0 : np ≠ "") (h1 : np ≠ "inicio")
    (h2 : np ≠ "resumo") (h3 : np ≠ "sobre") (h4 : np ≠ "contato") :
    firstMatch np = some catchAllEntry := by
  have b0 : (("" : String) == np) = false := beq_eq_false_iff_ne.mpr (Ne.symm h0)
  have b1 : (("inicio" : String) == np) = false := beq_eq_false_iff_ne.mpr (Ne.symm h1)
  have b2 : (("resumo" : String) == np) = false := beq_eq_false_iff_ne.mpr (Ne.symm h2)
  have b3 : (("sobre" : String) == np) = false := beq_eq_false_iff_ne.mpr (Ne.symm h3)
  have b4 : (("contato" : String) == np) = false := beq_eq_false_iff_ne.mpr (Ne.symm h4)
  simp [firstMatch, routes, List.find?, matchesEntry, catchAllEntry, b0, b1, b2, b3, b4]

/-- One unfolding step of the fuelled resolver. -/
lemma resolveFuel_two (p : String) :
    resolveFuel 2 p =
      match firstMatch (normalize p) with
      | none => none
      | some e =>
        match e.redirectTo with
        | some t => resolveFuel 1 t
        | none => e.loadComponent := rfl

/-- Every path resolves to one of the four pages. -/
lemma resolvePath_cases (p : String) :
    resolvePath p = some Page.inicial ∨ resolvePath p = some Page.resumo ∨
    resolvePath p = some Page.sobre ∨ resolvePath p = some Page.contato := by
  by_cases h0 : normalize p = ""
  · left; rw [resolvePath, resolveFuel_two, h0]; rfl
  · by_cases h1 : normalize p = "inicio"
    · left; rw [resolvePath, resolveFuel_two, h1]; rfl
    · by_cases h2 : normalize p = "resumo"
      · right; left; rw [resolvePath, resolveFuel_two, h2]; rfl
      · by_cases h3 : normalize p = "sobre"
        · right; right; left; rw [resolvePath, resolveFuel_two, h3]; rfl
        · by_cases h4 : normalize p = "contato"
          · right; right; right; rw [resolvePath, resolveFuel_two, h4]; rfl
          · left
            rw [resolvePath, resolveFuel_two, firstMatch_not_literal _ h0 h1 h2 h3 h4]
            rfl

/-- Resolution is total: no path is left unresolved. -/
lemma resolvePath_isSome (p : String) : (resolvePath p).isSome := by
  rcases resolvePath_cases p with h | h | h | h <;> simp [h]

/-- A path outside every literal pattern resolves to the home page. -/
lemma not_literal_resolves_inicial (p : String) (h : normalize p ∉ literalPatterns) :
    resolvePath p = some Page.inicial := by
  simp [literalPatterns] at h
  obtain ⟨h0, h1, h2, h3, h4⟩ := h
  rw [resolvePath, resolveFuel_two, firstMatch_not_literal _ h0 h1 h2 h3 h4]
  rfl

/-! ## Claims about the router -/

/-- C2: every incoming path string resolves to a page: the catch-all
entry is present and last in the table, a path matching no declared
literal pattern is matched by the catch-all, resolution never yields an
unresolved state, and `/unknown-path` resolves to the same page as
`/inicio`. -/
theorem C2_route_resolution_total :
    routes.getLast? = some catchAllEntry ∧
    (∀ p : String, (resolvePath p).isSome) ∧
    (∀ p : String, normalize p ∉ literalPatterns →
      firstMatch (normalize p) = some catchAllEntry ∧
      resolvePath p = some Page.inicial) ∧
    resolvePath "/unknown-path" = resolvePath "/inicio" := by
  refine ⟨rfl, resolvePath_isSome, fun p h => ⟨?_, not_literal_resolves_inicial p h⟩, rfl⟩
  simp [literalPatterns] at h
  obtain ⟨h0, h1, h2, h3, h4⟩ := h
  exact firstMatch_not_literal _ h0 h1 h2 h3 h4

/-- Witness for C2 at the concrete path `/unknown-path`. -/
theorem C2_route_resolution_total_witness :
    firstMatch (normalize "/unknown-path") = some catchAllEntry ∧
    resolvePath "/unknown-path" = some Page.inicial :=
  C2_route_resolution_total.2.2.1 "/unknown-path" (by decide)

/-- C5: the table's redirects are one level deep: a redirect entry never
carries a page module; every redirect target re-resolves, in one step,
to an entry that is a page and not another redirect (so re-resolution
cannot cycle); and the root entry redirects to the home path. -/
theorem C5_redirect_one_level :
    (∀ e ∈ routes, e.redirectTo.isSome → e.loadComponent = none) ∧
    (∀ e ∈ routes, ∀ t, e.redirectTo = some t → redirectTargetIsPage t = true) ∧
    routes.head? = some { path := "", redirectTo := some "/inicio" } := by
  refine ⟨?_, ?_, rfl⟩
  · intro e he hs
    simp [routes] at he
    rcases he with rfl | rfl | rfl | rfl | rfl | rfl
    · rfl
    · exact Bool.noConfusion hs
    · exact Bool.noConfusion hs
    · exact Bool.noConfusion hs
    · exact Bool.noConfusion hs
    · rfl
  · intro e he t ht
    simp [routes] at he
    rcases he with rfl | rfl | rfl | rfl | rfl | rfl
    · injection ht with h; subst h; decide
    · exact Option.noConfusion ht
    · exact Option.noConfusion ht
    · exact Option.noConfusion ht
    · exact Option.noConfusion ht
    · injection ht with h; subst h; decide

/-- Witness for C5 at the root entry and its target `/inicio`. -/
theorem C5_redirect_one_level_witness :
    redirectTargetIsPage "/inicio" = true :=
  C5_redirect_one_level.2.1 { path := "", redirectTo := some "/inicio" }
    (by decide) "/inicio" rfl

/-- C6: resolving the root path (empty path, and its slash form) yields
the same resolved page as resolving the home path `/inicio` directly. -/
theorem C6_root_resolves_like_home :
    resolvePath "" = resolvePath "/inicio" ∧
    resolvePath "/" = resolvePath "/inicio" ∧
    resolvePath "" = some Page.inicial :=
  ⟨rfl, rfl, rfl⟩

end Portfolio

namespace Portfolio

lemma isEmpty_false_of_ne_nil {α : Type} {l : List α} (h : l ≠ []) : l.isEmpty = false := by
  cases l with
  | nil => exact absurd rfl h
  | cons a t => rfl

lemma eq_nil_of_isEmpty {α : Type} {l : List α} (h : l.isEmpty = true) : l = [] := by
  cases l with
  | nil => rfl
  | cons a t => exact Bool.noConfusion h

theorem C1_invalid_submit_rejected (f : ContactFormState)
    (h : validateField emailRules f.email ≠ [] ∨ validateField nameRules f.name ≠ [] ∨
         validateField messageRules f.message ≠ [] ∨ validateField phoneRules f.phone ≠ []) :
    submit f = SubmitResult.rejected ∧ handoffCount (submit f) = 0 := by
  have hinv : contactFormInvalid f = true := by
    rcases h with h | h | h | h <;> simp [contactFormInvalid, isEmpty_false_of_ne_nil h]
  have hs : submit f = SubmitResult.rejected := by simp [submit, hinv]
  exact ⟨hs, by rw [hs]; rfl⟩

theorem C1_witness :
    validateField emailRules "" ≠ [] ∧
    submit ⟨"", "", "", ""⟩ = SubmitResult.rejected ∧
    handoffCount (submit ⟨"", "", "", ""⟩) = 0 :=
  ⟨by decide,
   (C1_invalid_submit_rejected ⟨"", "", "", ""⟩ (Or.inl (by decide))).1,
   (C1_invalid_submit_rejected ⟨"", "", "", ""⟩ (Or.inl (by decide))).2⟩

theorem C3_valid_submit_handoff (f : ContactFormState)
    (h : validateField emailRules f.email = [] ∧ validateField nameRules f.name = [] ∧
         validateField messageRules f.message = [] ∧ validateField phoneRules f.phone = []) :
    submit f = SubmitResult.submitted (formValue f) ∧
    handoffCount (submit f) = 1 ∧
    (∀ g : ContactFormState, contactFormInvalid g = true → handoffCount (submit g) = 0) := by
  have hinv : contactFormInvalid f = false := by
    simp [contactFormInvalid, h.1, h.2.1, h.2.2.1, h.2.2.2]
  have hs : submit f = SubmitResult.submitted (formValue f) := by simp [submit, hinv]
  refine ⟨hs, by rw [hs]; rfl, fun g hg => ?_⟩
  simp [submit, hg, handoffCount]

theorem C3_witness :
    validateField emailRules "a@b.com" = [] ∧
    submit ⟨"a@b.com", "Wilson", "Hello there, world", "1234-5678"⟩ =
      SubmitResult.submitted
        [("email", "a@b.com"), ("name", "Wilson"),
         ("message", "Hello there, world"), ("phone", "1234-5678")] ∧
    handoffCount (submit ⟨"a@b.com", "Wilson", "Hello there, world", "1234-5678"⟩) = 1 :=
  ⟨by decide,
   (C3_valid_submit_handoff ⟨"a@b.com", "Wilson", "Hello there, world", "1234-5678"⟩
     ⟨by decide, by decide, by decide, by decide⟩).1,
   (C3_valid_submit_handoff ⟨"a@b.com", "Wilson", "Hello there, world", "1234-5678"⟩
     ⟨by decide, by decide, by decide, by decide⟩).2.1⟩

lemma evalRule_eq_required {v : String} {r : Rule}
    (he : evalRule v r = some ErrorKind.required) : trimChars v.toList = [] := by
  cases r with
  | required =>
    rw [evalRule] at he
    split at he
    · next hc => exact eq_nil_of_isEmpty hc
    · exact Option.noConfusion he
  | email =>
    rw [evalRule] at he
    split at he
    · exact Option.noConfusion he
    · injection he with hk; exact ErrorKind.noConfusion hk
  | minLength n =>
    rw [evalRule] at he
    split at he
    · injection he with hk; exact ErrorKind.noConfusion hk
    · exact Option.noConfusion he
  | maxLength n =>
    rw [evalRule] at he
    split at he
    · injection he with hk; exact ErrorKind.noConfusion hk
    · exact Option.noConfusion he
  | phonePattern =>
    rw [evalRule] at he
    split at he
    · exact Option.noConfusion he
    · injection he with hk; exact ErrorKind.noConfusion hk

lemma dropWhile_all_space {cs : List Char} (h : cs.all isSpaceChar = true) :
    cs.dropWhile isSpaceChar = [] := by
  induction cs with
  | nil => rfl
  | cons a t ih =>
    simp only [List.all_cons, Bool.and_eq_true] at h
    simp [List.dropWhile_cons, h.1, ih h.2]

theorem C4_required_iff_trim_empty (rules : List Rule) (v : String)
    (hreq : Rule.required ∈ rules) :
    (ErrorKind.required ∈ validateField rules v ↔ trimChars v.toList = []) ∧
    (v.toList.all isSpaceChar = true → ErrorKind.required ∈ validateField rules v) := by
  have hiff : ErrorKind.required ∈ validateField rules v ↔ trimChars v.toList = [] := by
    constructor
    · intro hm
      obtain ⟨r, _, he⟩ := List.mem_filterMap.mp hm
      exact evalRule_eq_required he
    · intro ht
      refine List.mem_filterMap.mpr ⟨Rule.required, hreq, ?_⟩
      rw [evalRule, ht]
      rfl
  refine ⟨hiff, fun hall => hiff.mpr ?_⟩
  rw [trimChars, dropWhile_all_space hall]
  rfl

theorem C4_witness :
    Rule.required ∈ messageRules ∧
    (ErrorKind.required ∈ validateField messageRules "   " ↔ trimChars "   ".toList = []) ∧
    ErrorKind.required ∈ validateField messageRules "   " :=
  ⟨by decide,
   (C4_required_iff_trim_empty messageRules "   " (by decide)).1,
   (C4_required_iff_trim_empty messageRules "   " (by decide)).2 (by decide)⟩

theorem C8_validate_pure_and_order_insensitive
    (rules rules' : List Rule) (v : String) (h : rules.Perm rules') :
    validateField rules v = validateField rules v ∧
    (validateField rules v).Perm (validateField rules' v) ∧
    (∀ e : ErrorKind, e ∈ validateField rules v ↔ e ∈ validateField rules' v) :=
  ⟨rfl, h.filterMap (evalRule v),
   fun _ => (h.filterMap (evalRule v)).mem_iff⟩

theorem C8_witness :
    (messageRules.Perm [Rule.minLength 10, Rule.required, Rule.maxLength 1000]) ∧
    (∀ e : ErrorKind, e ∈ validateField messageRules "hi" ↔
      e ∈ validateField [Rule.minLength 10, Rule.required, Rule.maxLength 1000] "hi") :=
  ⟨by decide,
   (C8_validate_pure_and_order_insensitive messageRules
     [Rule.minLength 10, Rule.required, Rule.maxLength 1000] "hi" (by decide)).2.2⟩

end Portfolio

namespace Portfolio

theorem C7_counterexample :
    (String.mk (List.replicate 50 ' ')).length = 50 ∧
    validateField messageRules (String.mk (List.replicate 50 ' ')) = [ErrorKind.required] ∧
    validateField messageRules (String.mk (List.replicate 50 ' ')) ≠ [] := by
  refine ⟨by decide, by decide, by decide⟩

theorem C7_message_scenarios :
    ErrorKind.required ∈ validateField messageRules "" ∧
    (∀ s : String, s.length = 5 → ErrorKind.minLength ∈ validateField messageRules s) ∧
    (∀ s : String, s.length = 50 → trimChars s.toList ≠ [] →
      validateField messageRules s = []) := by
  refine ⟨by decide, fun s h5 => ?_, fun s h50 htrim => ?_⟩
  · refine List.mem_filterMap.mpr ⟨Rule.minLength 10, by decide, ?_⟩
    simp [evalRule, h5]
  · have h1 : evalRule s Rule.required = none := by
      rw [evalRule, isEmpty_false_of_ne_nil htrim]
      rfl
    have h2 : evalRule s (Rule.minLength 10) = none := by simp [evalRule, h50]
    have h3 : evalRule s (Rule.maxLength 1000) = none := by simp [evalRule, h50]
    simp [validateField, messageRules, h1, h2, h3]

theorem C7_witness :
    ("abcde" : String).length = 5 ∧
    ErrorKind.minLength ∈ validateField messageRules "abcde" ∧
    (String.mk (List.replicate 50 'a')).length = 50 ∧
    validateField messageRules (String.mk (List.replicate 50 'a')) = [] :=
  ⟨by decide,
   C7_message_scenarios.2.1 "abcde" (by decide),
   by decide,
   C7_message_scenarios.2.2 (String.mk (List.replicate 50 'a')) (by decide) (by decide)⟩

lemma findBannedWord_eq_find (t : String) (ws : List String) :
    findBannedWord t ws = ws.find? (fun w => strIncludes t (lowerStr w)) := by
  induction ws with
  | nil => rfl
  | cons w ws ih =>
    by_cases hw : strIncludes t (lowerStr w) = true
    · simp [findBannedWord, hw]
    · simp only [Bool.not_eq_true] at hw
      simp [findBannedWord, hw, ih]

theorem C10_banned_words (words : List String) (v : String) (hv : v ≠ "") :
    bannedWordsValidator words none = none ∧
    bannedWordsValidator words (some "") = none ∧
    ((bannedWordsValidator words (some v)).isSome ↔
      ∃ w ∈ words, strIncludes (lowerStr v) (lowerStr w) = true) ∧
    bannedWordsValidator words (some v) =
      words.find? (fun w => strIncludes (lowerStr v) (lowerStr w)) := by
  have hval : bannedWordsValidator words (some v) =
      words.find? (fun w => strIncludes (lowerStr v) (lowerStr w)) := by
    simp [bannedWordsValidator, hv, findBannedWord_eq_find]
  refine ⟨rfl, by simp [bannedWordsValidator], ?_, hval⟩
  rw [hval]
  simp [List.find?_isSome]

theorem C10_witness :
    ("Buy SPAM now" : String) ≠ "" ∧
    bannedWordsValidator ["spam", "curse"] (some "Buy SPAM now") =
      ["spam", "curse"].find?
        (fun w => strIncludes (lowerStr "Buy SPAM now") (lowerStr w)) ∧
    bannedWordsValidator ["spam", "curse"] (some "Buy SPAM now") = some "spam" :=
  ⟨by decide,
   (C10_banned_words ["spam", "curse"] "Buy SPAM now" (by decide)).2.2.2,
   by decide⟩

lemma navRun_gen_two (cs : List NavEvent) :
    ∀ s : NavState, s.gen = 2 →
    (∀ e ∈ cs, e = NavEvent.loadComplete 1 Page.sobre ∨
               e = NavEvent.loadComplete 2 Page.contato) →
    (NavEvent.loadComplete 2 Page.contato ∈ cs ∨ s.displayed = some Page.contato) →
    (navRun s cs).displayed = some Page.contato := by
  induction cs with
  | nil =>
    intro s _ _ hin
    rcases hin with hin | hd
    · exact absurd hin (List.not_mem_nil _)
    · exact hd
  | cons e es ih =>
    intro s hg hall hin
    rcases hall e (List.mem_cons_self e es) with rfl | rfl
    · have hstep : navStep s (NavEvent.loadComplete 1 Page.sobre) = s := by
        simp [navStep, hg]
      rw [navRun, hstep]
      refine ih s hg (fun x hx => hall x (List.mem_cons_of_mem _ hx)) ?_
      rcases hin with hin | hd
      · rcases List.mem_cons.mp hin with heq | hin'
        · exact absurd heq (by decide)
        · exact Or.inl hin'
      · exact Or.inr hd
    · have hstep : navStep s (NavEvent.loadComplete 2 Page.contato) =
          { s with displayed := some Page.contato } := by
        simp [navStep, hg]
      rw [navRun, hstep]
      exact ih _ (by simp [hg]) (fun x hx => hall x (List.mem_cons_of_mem _ hx))
        (Or.inr rfl)

theorem C9_stale_load_discarded (cs : List NavEvent)
    (hall : ∀ e ∈ cs, e = NavEvent.loadComplete 1 Page.sobre ∨
                      e = NavEvent.loadComplete 2 Page.contato)
    (hdone : NavEvent.loadComplete 2 Page.contato ∈ cs) :
    resolvePath "/sobre" = some Page.sobre ∧
    resolvePath "/contato" = some Page.contato ∧
    (navRun navInit
      (NavEvent.navigate "/sobre" :: NavEvent.navigate "/contato" :: cs)).displayed
      = some Page.contato ∧
    (navRun navInit
      (NavEvent.navigate "/sobre" :: NavEvent.navigate "/contato" :: cs)).displayed
      ≠ some Page.sobre := by
  have hrun : navRun navInit
      (NavEvent.navigate "/sobre" :: NavEvent.navigate "/contato" :: cs) =
      navRun ⟨2, none⟩ cs := rfl
  have hd : (navRun (⟨2, none⟩ : NavState) cs).displayed = some Page.contato :=
    navRun_gen_two cs ⟨2, none⟩ rfl hall (Or.inl hdone)
  refine ⟨rfl, rfl, by rw [hrun, hd], by rw [hrun, hd]; simp⟩

theorem C9_witness :
    (NavEvent.loadComplete 2 Page.contato ∈
      [NavEvent.loadComplete 2 Page.contato, NavEvent.loadComplete 1 Page.sobre]) ∧
    (navRun navInit
      (NavEvent.navigate "/sobre" :: NavEvent.navigate "/contato" ::
        [NavEvent.loadComplete 2 Page.contato, NavEvent.loadComplete 1 Page.sobre])).displayed
      = some Page.contato :=
  ⟨by decide,
   (C9_stale_load_discarded
     [NavEvent.loadComplete 2 Page.contato, NavEvent.loadComplete 1 Page.sobre]
     (by decide) (by decide)).2.2.1⟩

end Portfolio
